import Mathlib

/- Verification of the drape-coefficient application against its specification.

   The JavaScript sources are shallowly embedded over the rationals: JavaScript
   numbers are modelled as exact rationals, and the double-precision constant
   Math.PI is embedded as its exact rational value.  Pixel masks are modelled as
   Boolean-valued functions on integer coordinates, and the measurement history
   as a Lean list (most recent first, matching the unshift/pop discipline of the
   source). -/

namespace DrapeTest

/-- Exact rational value of the IEEE-754 double constant Math.PI that the
JavaScript source uses in every circle-area and circularity computation. -/
def mathPI : ℚ := 884279719003555 / 281474976710656

/-- Clamp of a value to an interval, written in the source as
Math.max lo (Math.min hi x). -/
def clamp (x lo hi : ℚ) : ℚ := max lo (min hi x)

namespace DrapeCalculatorUtils

/-- Embedding of DrapeCalculatorUtils.calculateCircleArea (src/Script.js):
non-positive (or NaN) diameters give 0, otherwise pi times the squared radius. -/
def calculateCircleArea (diameter : ℚ) : ℚ :=
  if diameter ≤ 0 then 0 else mathPI * (diameter / 2) * (diameter / 2)

/-- Embedding of DrapeCalculatorUtils.calculateDrapeCoefficient (src/Script.js):
guards for non-positive inputs and for fabricArea ≤ diskArea return 0, the
main branch computes ((drapedArea − diskArea) / (fabricArea − diskArea)) · 100
clamped to the interval from 0 to 100. -/
def calculateDrapeCoefficient (drapedArea diskDiameter fabricDiameter : ℚ) : ℚ :=
  if drapedArea ≤ 0 then 0
  else if diskDiameter ≤ 0 then 0
  else if fabricDiameter ≤ 0 then 0
  else
    let diskArea := calculateCircleArea diskDiameter
    let fabricArea := calculateCircleArea fabricDiameter
    if fabricArea ≤ diskArea then 0
    else max 0 (min 100 ((drapedArea - diskArea) / (fabricArea - diskArea) * 100))

/-- Embedding of DrapeCalculatorUtils.getDrapeCategory (src/Script.js): the
cascade of strict upper bounds 0, 30, 60, 85 and the inclusive bound 100. -/
def getDrapeCategory (coefficient : ℚ) : String :=
  if coefficient < 0 then "Invalid"
  else if coefficient < 30 then "Stiff"
  else if coefficient < 60 then "Medium Drape"
  else if coefficient < 85 then "Good Drape"
  else if coefficient ≤ 100 then "Excellent Drape"
  else "Very High Drape"

end DrapeCalculatorUtils

/-- The drape-coefficient formula exactly as the specification words it in
section 4.1: numerator Af − As (fabric minus disk area), denominator
totalShadowAreaCm2 − As (measured shadow minus disk area), the ratio times 100
clamped to the interval from 0 to 100.  Written from the specification so it
can be compared with the source function calculateDrapeCoefficient. -/
def drapeCoefficientSpecFormula
    (totalShadowAreaCm2 diskDiameterCm fabricDiameterCm : ℚ) : ℚ :=
  let As := DrapeCalculatorUtils.calculateCircleArea diskDiameterCm
  let Af := DrapeCalculatorUtils.calculateCircleArea fabricDiameterCm
  clamp ((Af - As) / (totalShadowAreaCm2 - As) * 100) 0 100

/-- Math.PI embeds to a positive rational. -/
theorem mathPI_pos : 0 < mathPI := by norm_num [mathPI]

/-- Circle area of a positive diameter is positive. -/
theorem calculateCircleArea_pos {d : ℚ} (hd : 0 < d) :
    0 < DrapeCalculatorUtils.calculateCircleArea d := by
  rw [DrapeCalculatorUtils.calculateCircleArea, if_neg (not_le.mpr hd)]
  have hpi := mathPI_pos
  have hd2 : 0 < d / 2 := by linarith
  positivity

/-- Circle area is strictly monotone on positive diameters. -/
theorem calculateCircleArea_strictMono {a b : ℚ} (ha : 0 < a) (hab : a < b) :
    DrapeCalculatorUtils.calculateCircleArea a <
      DrapeCalculatorUtils.calculateCircleArea b := by
  rw [DrapeCalculatorUtils.calculateCircleArea,
    DrapeCalculatorUtils.calculateCircleArea, if_neg (not_le.mpr ha),
    if_neg (not_le.mpr (ha.trans hab))]
  have hpi := mathPI_pos
  have h1 : a / 2 < b / 2 := by linarith
  have h2 : 0 < a / 2 := by linarith
  have h3 : (a / 2) * (a / 2) < (b / 2) * (b / 2) := by nlinarith
  calc mathPI * (a / 2) * (a / 2) = mathPI * ((a / 2) * (a / 2)) := by ring
    _ < mathPI * ((b / 2) * (b / 2)) := by
        exact mul_lt_mul_of_pos_left h3 hpi
    _ = mathPI * (b / 2) * (b / 2) := by ring

/-- Circle area is monotone on positive diameters. -/
theorem calculateCircleArea_mono {a b : ℚ} (ha : 0 < a) (hab : a ≤ b) :
    DrapeCalculatorUtils.calculateCircleArea a ≤
      DrapeCalculatorUtils.calculateCircleArea b := by
  rcases eq_or_lt_of_le hab with rfl | h
  · exact le_refl _
  · exact le_of_lt (calculateCircleArea_strictMono ha h)

/-- C1 counterexample: at totalShadowAreaCm2 = 300, diskDiameterCm = 18,
fabricDiameterCm = 30 all of the claim's preconditions hold (fabric larger than
disk, both positive, positive total area, positive numerator and denominator),
yet the source function calculateDrapeCoefficient does not equal the
specification's section-4.1 formula: the code computes about 10.06 while the
spec formula clamps to 100.  The spec has the ratio inverted. -/
theorem c1_spec_formula_counterexample :
    (0 : ℚ) < 18 ∧ (18 : ℚ) < 30 ∧ (0 : ℚ) < 300 ∧
    0 < DrapeCalculatorUtils.calculateCircleArea 30 -
        DrapeCalculatorUtils.calculateCircleArea 18 ∧
    0 < 300 - DrapeCalculatorUtils.calculateCircleArea 18 ∧
    DrapeCalculatorUtils.calculateDrapeCoefficient 300 18 30 ≠
      drapeCoefficientSpecFormula 300 18 30 := by
  refine ⟨by norm_num, by norm_num, by norm_num, ?_, ?_, ?_⟩ <;>
    norm_num [DrapeCalculatorUtils.calculateDrapeCoefficient,
      DrapeCalculatorUtils.calculateCircleArea, drapeCoefficientSpecFormula,
      clamp, mathPI]

/-- C1 (amended): under the claim's preconditions the drape coefficient equals
clamp of ((totalShadowAreaCm2 − As) / (Af − As)) · 100, i.e. the numerator is
the measured-shadow-minus-disk area and the denominator is the fabric-minus-disk
area — the transpose of the spec's section-4.1 wording. -/
theorem c1_drape_formula_amended (total diskD fabricD : ℚ)
    (hdisk : 0 < diskD) (hfab : diskD < fabricD) (htot : 0 < total)
    (hnum : 0 < DrapeCalculatorUtils.calculateCircleArea fabricD -
        DrapeCalculatorUtils.calculateCircleArea diskD)
    (hden : 0 < total - DrapeCalculatorUtils.calculateCircleArea diskD) :
    DrapeCalculatorUtils.calculateDrapeCoefficient total diskD fabricD =
      clamp ((total - DrapeCalculatorUtils.calculateCircleArea diskD) /
        (DrapeCalculatorUtils.calculateCircleArea fabricD -
          DrapeCalculatorUtils.calculateCircleArea diskD) * 100) 0 100 := by
  have hlt := calculateCircleArea_strictMono hdisk hfab
  simp only [DrapeCalculatorUtils.calculateDrapeCoefficient, clamp]
  split_ifs with h1 h2 h3 h4
  · exact absurd htot (not_lt.mpr h1)
  · exact absurd hdisk (not_lt.mpr h2)
  · exact absurd (hdisk.trans hfab) (not_lt.mpr h3)
  · exact absurd hlt (not_lt.mpr h4)
  · rfl

/-- C1 amended witness at the concrete input of the counterexample. -/
theorem c1_drape_formula_amended_witness :
    DrapeCalculatorUtils.calculateDrapeCoefficient 300 18 30 =
      clamp ((300 - DrapeCalculatorUtils.calculateCircleArea 18) /
        (DrapeCalculatorUtils.calculateCircleArea 30 -
          DrapeCalculatorUtils.calculateCircleArea 18) * 100) 0 100 :=
  c1_drape_formula_amended 300 18 30 (by norm_num) (by norm_num) (by norm_num)
    (by norm_num [DrapeCalculatorUtils.calculateCircleArea, mathPI])
    (by norm_num [DrapeCalculatorUtils.calculateCircleArea, mathPI])

/-- C2: for fabricD above diskD above 0 the coefficient is always inside the
interval from 0 to 100, a shadow equal to the disk area gives 0 percent, and a
shadow equal to the full fabric area gives 100 percent. -/
theorem c2_coefficient_clamping (total diskD fabricD : ℚ)
    (hdisk : 0 < diskD) (hfab : diskD < fabricD) :
    (0 ≤ DrapeCalculatorUtils.calculateDrapeCoefficient total diskD fabricD ∧
      DrapeCalculatorUtils.calculateDrapeCoefficient total diskD fabricD ≤ 100) ∧
    DrapeCalculatorUtils.calculateDrapeCoefficient
      (DrapeCalculatorUtils.calculateCircleArea diskD) diskD fabricD = 0 ∧
    DrapeCalculatorUtils.calculateDrapeCoefficient
      (DrapeCalculatorUtils.calculateCircleArea fabricD) diskD fabricD = 100 := by
  have hAs := calculateCircleArea_pos hdisk
  have hAf := calculateCircleArea_pos (hdisk.trans hfab)
  have hlt := calculateCircleArea_strictMono hdisk hfab
  refine ⟨?_, ?_, ?_⟩
  · simp only [DrapeCalculatorUtils.calculateDrapeCoefficient]
    split_ifs
    · exact ⟨le_refl 0, by norm_num⟩
    · exact ⟨le_refl 0, by norm_num⟩
    · exact ⟨le_refl 0, by norm_num⟩
    · exact ⟨le_refl 0, by norm_num⟩
    · exact ⟨le_max_left _ _, max_le (by norm_num) (min_le_left _ _)⟩
  · simp only [DrapeCalculatorUtils.calculateDrapeCoefficient]
    split_ifs with h1 h2 h3 h4
    · rfl
    · rfl
    · rfl
    · rfl
    · rw [sub_self, zero_div, zero_mul]
      rw [min_eq_right (by norm_num : (0 : ℚ) ≤ 100), max_self]
  · simp only [DrapeCalculatorUtils.calculateDrapeCoefficient]
    split_ifs with h1 h2 h3 h4
    · exact absurd hAf (not_lt.mpr h1)
    · exact absurd hdisk (not_lt.mpr h2)
    · exact absurd (hdisk.trans hfab) (not_lt.mpr h3)
    · exact absurd hlt (not_lt.mpr h4)
    · rw [div_self (ne_of_gt (sub_pos.mpr hlt)), one_mul]
      rw [min_self, max_eq_right (by norm_num : (0 : ℚ) ≤ 100)]

/-- C2 witness at total = 5, diskD = 18, fabricD = 30. -/
theorem c2_coefficient_clamping_witness :
    (0 ≤ DrapeCalculatorUtils.calculateDrapeCoefficient 5 18 30 ∧
      DrapeCalculatorUtils.calculateDrapeCoefficient 5 18 30 ≤ 100) ∧
    DrapeCalculatorUtils.calculateDrapeCoefficient
      (DrapeCalculatorUtils.calculateCircleArea 18) 18 30 = 0 ∧
    DrapeCalculatorUtils.calculateDrapeCoefficient
      (DrapeCalculatorUtils.calculateCircleArea 30) 18 30 = 100 :=
  c2_coefficient_clamping 5 18 30 (by norm_num) (by norm_num)

/-- C3: whenever fabricD is at most diskD, the drape-coefficient function
returns the degenerate result 0 for every area input. -/
theorem c3_degenerate_geometry (x diskD fabricD : ℚ) (h : fabricD ≤ diskD) :
    DrapeCalculatorUtils.calculateDrapeCoefficient x diskD fabricD = 0 := by
  simp only [DrapeCalculatorUtils.calculateDrapeCoefficient]
  split_ifs with h1 h2 h3 h4
  · rfl
  · rfl
  · rfl
  · rfl
  · exact absurd (calculateCircleArea_mono (not_le.mp h3) h) h4

/-- C3 witness: equal diameters give coefficient 0. -/
theorem c3_degenerate_geometry_witness :
    DrapeCalculatorUtils.calculateDrapeCoefficient 100 18 18 = 0 :=
  c3_degenerate_geometry 100 18 18 (le_refl 18)

/-- C4: the classification buckets of getDrapeCategory are exactly
inclusive-lower/exclusive-upper at 30, 60 and 85, with the final bucket closed
at 100. -/
theorem c4_classification_boundaries (c : ℚ) :
    (0 ≤ c → c < 30 → DrapeCalculatorUtils.getDrapeCategory c = "Stiff") ∧
    (30 ≤ c → c < 60 →
      DrapeCalculatorUtils.getDrapeCategory c = "Medium Drape") ∧
    (60 ≤ c → c < 85 →
      DrapeCalculatorUtils.getDrapeCategory c = "Good Drape") ∧
    (85 ≤ c → c ≤ 100 →
      DrapeCalculatorUtils.getDrapeCategory c = "Excellent Drape") := by
  refine ⟨fun hl hu => ?_, fun hl hu => ?_, fun hl hu => ?_, fun hl hu => ?_⟩
  · rw [DrapeCalculatorUtils.getDrapeCategory, if_neg (not_lt.mpr hl),
      if_pos hu]
  · rw [DrapeCalculatorUtils.getDrapeCategory,
      if_neg (not_lt.mpr (le_trans (by norm_num) hl)),
      if_neg (not_lt.mpr hl), if_pos hu]
  · rw [DrapeCalculatorUtils.getDrapeCategory,
      if_neg (not_lt.mpr (le_trans (by norm_num) hl)),
      if_neg (not_lt.mpr (le_trans (by norm_num) hl)),
      if_neg (not_lt.mpr hl), if_pos hu]
  · rw [DrapeCalculatorUtils.getDrapeCategory,
      if_neg (not_lt.mpr (le_trans (by norm_num) hl)),
      if_neg (not_lt.mpr (le_trans (by norm_num) hl)),
      if_neg (not_lt.mpr (le_trans (by norm_num) hl)),
      if_neg (not_lt.mpr hl), if_pos hu]

/-- C4 witness: the seven boundary inputs from the spec's test list. -/
theorem c4_classification_boundaries_witness :
    DrapeCalculatorUtils.getDrapeCategory 29.999 = "Stiff" ∧
    DrapeCalculatorUtils.getDrapeCategory 30 = "Medium Drape" ∧
    DrapeCalculatorUtils.getDrapeCategory 59.999 = "Medium Drape" ∧
    DrapeCalculatorUtils.getDrapeCategory 60 = "Good Drape" ∧
    DrapeCalculatorUtils.getDrapeCategory 84.999 = "Good Drape" ∧
    DrapeCalculatorUtils.getDrapeCategory 85 = "Excellent Drape" ∧
    DrapeCalculatorUtils.getDrapeCategory 100 = "Excellent Drape" :=
  ⟨(c4_classification_boundaries 29.999).1 (by norm_num) (by norm_num),
    (c4_classification_boundaries 30).2.1 (by norm_num) (by norm_num),
    (c4_classification_boundaries 59.999).2.1 (by norm_num) (by norm_num),
    (c4_classification_boundaries 60).2.2.1 (by norm_num) (by norm_num),
    (c4_classification_boundaries 84.999).2.2.1 (by norm_num) (by norm_num),
    (c4_classification_boundaries 85).2.2.2 (by norm_num) (by norm_num),
    (c4_classification_boundaries 100).2.2.2 (by norm_num) (by norm_num)⟩

/-- A detected circle: center coordinates and radius in pixels, as the plain
objects produced by the detectors in src/script.js. -/
structure Circle where
  x : ℚ
  y : ℚ
  radius : ℚ

namespace App

/-- Embedding of updateScaleFactor (src/script.js): with no detected coin the
function returns without writing a scale factor; otherwise it stores
pixelDiameter / referenceDiameter where pixelDiameter = radius · 2. -/
def updateScaleFactor (detectedCoin : Option Circle)
    (referenceDiameter : ℚ) : Option ℚ :=
  match detectedCoin with
  | none => none
  | some coin => some ((coin.radius * 2) / referenceDiameter)

/-- Embedding of the pixel-to-physical area conversion in processDrapeArea
(src/script.js): areaCm2 = pixelArea / (scaleFactor · scaleFactor). -/
def pixelAreaToCm2 (pixelArea scaleFactor : ℚ) : ℚ :=
  pixelArea / (scaleFactor * scaleFactor)

/-- Number of set pixels of a mask over a w × h image grid, embedding
cv.countNonZero as used by processDrapeArea (src/script.js). -/
def countNonZero (w h : ℕ) (mask : ℕ → ℕ → Bool) : ℕ :=
  ((Finset.range w ×ˢ Finset.range h).filter fun p => mask p.1 p.2 = true).card

/-- Embedding of the disk-subtraction step of processDrapeArea
(src/script.js): totalShadowPixelArea counts the shadow mask; when the disk
detector returns a circle, the rasterised disk mask is removed from the shadow
mask (bitwise and with its complement) before counting fabric-only pixels;
when the detector returns null the fabric-only count is initialised to, and
left at, the total count.  The rasterised disk produced by cv.circle is
abstracted as the mask function carried by the Option. -/
def diskSubtraction (w h : ℕ) (shadowMask : ℕ → ℕ → Bool)
    (diskMask : Option (ℕ → ℕ → Bool)) : ℕ × ℕ :=
  let total := countNonZero w h shadowMask
  match diskMask with
  | none => (total, total)
  | some dm => (total, countNonZero w h fun x y => shadowMask x y && !(dm x y))

/-- Session state fields of the AppState object read by the coefficient step
in src/script.js. -/
structure AppState where
  drapeAreaTotal : ℚ
  scaleFactor : ℚ
  diskDiameter : ℚ
  fabricDiameter : ℚ

end App

namespace DrapeFormulas

/-- Modelled from the spec: the DrapeFormulas helper invoked by the
orchestrator in src/script.js is not among the sources (only its caller is),
so its drapeCoefficient member is modelled from the specification's
section 4.1 words: As and Af are the disk and fabric circle areas, a
non-positive total, denominator or numerator yields 0, otherwise the ratio
numerator / denominator times 100 clamped to the interval from 0 to 100. -/
def drapeCoefficient
    (totalShadowAreaCm2 diskDiameterCm fabricDiameterCm : ℚ) : ℚ :=
  let As := mathPI * (diskDiameterCm / 2) * (diskDiameterCm / 2)
  let Af := mathPI * (fabricDiameterCm / 2) * (fabricDiameterCm / 2)
  if totalShadowAreaCm2 ≤ 0 ∨ totalShadowAreaCm2 - As ≤ 0 ∨ Af - As ≤ 0 then 0
  else clamp ((Af - As) / (totalShadowAreaCm2 - As) * 100) 0 100

end DrapeFormulas

namespace App

/-- Embedding of the orchestrator function calculateDrapeCoefficient
(src/script.js): it refuses to run without a positive measured total area and
a non-zero scale factor, and otherwise applies the coefficient formula to the
measured total area with the fixed constants diskDiameterCm = 18 and
fabricDiameterCm = 30, ignoring the configured session diameters. -/
def calculateDrapeCoefficient (s : AppState) : Option ℚ :=
  if s.drapeAreaTotal ≤ 0 ∨ s.scaleFactor = 0 then none
  else some (DrapeFormulas.drapeCoefficient s.drapeAreaTotal 18 30)

end App

namespace Part000

/-- Embedding of addToHistory (src/unnamed/part_000): the new measurement is
unshifted onto the front of the history, and if the length then exceeds 20 the
last (oldest) entry is popped. -/
def addToHistory {α : Type} (m : α) (history : List α) : List α :=
  let h := m :: history
  if h.length > 20 then h.dropLast else h

/-- Repeated insertion of a batch of measurements, oldest first, through
addToHistory. -/
def insertAll {α : Type} (ms : List α) (history : List α) : List α :=
  ms.foldl (fun h m => addToHistory m h) history

/-- On a history within the 20-entry bound, addToHistory is truncation of the
cons to 20 entries. -/
theorem addToHistory_eq_take {α : Type} (m : α) (h : List α)
    (hh : h.length ≤ 20) : addToHistory m h = (m :: h).take 20 := by
  simp only [addToHistory]
  split_ifs with hlen
  · rw [List.dropLast_eq_take]
    have h20 : h.length = 20 := by
      simp only [List.length_cons] at hlen
      omega
    simp [h20]
  · simp only [List.length_cons] at hlen
    exact (List.take_of_length_le
      (by simp only [List.length_cons]; omega)).symm

/-- Truncating the right summand of an append to 20 before truncating the
whole append to 20 changes nothing. -/
theorem take_append_take {α : Type} (l1 l2 : List α) :
    (l1 ++ l2.take 20).take 20 = (l1 ++ l2).take 20 := by
  rw [List.take_append_eq_append_take, List.take_append_eq_append_take,
    List.take_take]
  congr 1
  congr 1
  exact Nat.min_eq_left (Nat.sub_le 20 _)

/-- Folding a batch through addToHistory keeps the reversed batch in front of
the prior history, truncated to 20 entries. -/
theorem insertAll_eq_take {α : Type} (ms : List α) :
    ∀ h : List α, h.length ≤ 20 →
      insertAll ms h = (ms.reverse ++ h).take 20 := by
  induction ms with
  | nil =>
      intro h hh
      simpa [insertAll] using (List.take_of_length_le hh).symm
  | cons m ms ih =>
      intro h hh
      have hlen : (addToHistory m h).length ≤ 20 := by
        rw [addToHistory_eq_take m h hh]
        exact (List.length_take_le 20 (m :: h)).trans (le_refl 20)
      have step : insertAll (m :: ms) h = insertAll ms (addToHistory m h) := rfl
      rw [step, ih (addToHistory m h) hlen, addToHistory_eq_take m h hh,
        take_append_take, List.reverse_cons, List.append_assoc]
      rfl

end Part000

/-- C5: after a successful coin detection the stored scale factor is exactly
2 · radius / referenceDiameter pixels per centimetre. -/
theorem c5_scale_factor (cx cy r refD : ℚ) (h : 0 < refD) :
    App.updateScaleFactor (some ⟨cx, cy, r⟩) refD = some (2 * r / refD) := by
  simp only [App.updateScaleFactor]
  rw [mul_comm]

/-- C5 witness: radius 50 px with a 2.5 cm reference gives 40 px per cm. -/
theorem c5_scale_factor_witness :
    App.updateScaleFactor (some ⟨0, 0, 50⟩) 2.5 = some 40 :=
  (c5_scale_factor 0 0 50 2.5 (by norm_num)).trans (by norm_num)

/-- C6: converting a pixel count to physical area by dividing by the squared
scale factor and back by multiplying with the squared scale factor is an exact
round trip for every positive scale factor. -/
theorem c6_pixel_area_round_trip (n s : ℚ) (hs : 0 < s) :
    App.pixelAreaToCm2 n s * (s * s) = n := by
  rw [App.pixelAreaToCm2]
  exact div_mul_cancel₀ n (ne_of_gt (mul_pos hs hs))

/-- C6 witness at n = 7, s = 2. -/
theorem c6_pixel_area_round_trip_witness :
    App.pixelAreaToCm2 7 2 * (2 * 2) = 7 :=
  c6_pixel_area_round_trip 7 2 (by norm_num)

/-- C8: the fabric-only pixel count never exceeds the total shadow pixel
count, and when the disk-circle search yields no candidate the two counts are
exactly equal (degraded mode still returns a result). -/
theorem c8_fabric_le_total (w h : ℕ) (shadowMask : ℕ → ℕ → Bool)
    (diskMask : Option (ℕ → ℕ → Bool)) :
    (App.diskSubtraction w h shadowMask diskMask).2 ≤
      (App.diskSubtraction w h shadowMask diskMask).1 ∧
    (diskMask = none →
      (App.diskSubtraction w h shadowMask diskMask).2 =
        (App.diskSubtraction w h shadowMask diskMask).1) := by
  cases diskMask with
  | none => exact ⟨le_refl _, fun _ => rfl⟩
  | some dm =>
      constructor
      · simp only [App.diskSubtraction, App.countNonZero]
        apply Finset.card_le_card
        intro p hp
        simp only [Finset.mem_filter] at hp ⊢
        exact ⟨hp.1, ((Bool.and_eq_true _ _).mp hp.2).1⟩
      · intro hc
        exact absurd hc (Option.some_ne_none dm)

/-- C8 witness on a concrete 2 × 2 grid with a mask set everywhere and no
detected disk. -/
theorem c8_fabric_le_total_witness :
    (App.diskSubtraction 2 2 (fun _ _ => true) none).2 ≤
      (App.diskSubtraction 2 2 (fun _ _ => true) none).1 ∧
    (App.diskSubtraction 2 2 (fun _ _ => true) none).2 =
      (App.diskSubtraction 2 2 (fun _ _ => true) none).1 :=
  ⟨(c8_fabric_le_total 2 2 (fun _ _ => true) none).1,
    (c8_fabric_le_total 2 2 (fun _ _ => true) none).2 rfl⟩

/-- C9: the history is kept most-recent-first and bounded at 20: a new entry
goes to the front, a full history of 20 drops its oldest entry, and inserting
25 measurements into an empty history leaves exactly the 20 newest,
most-recent-first, the oldest 5 discarded. -/
theorem c9_history_eviction {α : Type} (m : α) (ms h : List α)
    (hh : h.length ≤ 20) (hms : ms.length = 25) :
    (Part000.addToHistory m h).head? = some m ∧
    (Part000.addToHistory m h).length ≤ 20 ∧
    (h.length = 20 → Part000.addToHistory m h = m :: h.dropLast) ∧
    Part000.insertAll ms [] = (ms.drop 5).reverse ∧
    (Part000.insertAll ms []).length = 20 := by
  have htake := Part000.addToHistory_eq_take m h hh
  have hins : Part000.insertAll ms [] = ms.reverse.take 20 := by
    rw [Part000.insertAll_eq_take ms [] (by simp), List.append_nil]
  refine ⟨?_, ?_, ?_, ?_, ?_⟩
  · rw [htake]
    rfl
  · rw [htake]
    exact List.length_take_le 20 (m :: h)
  · intro h20
    rw [htake, List.dropLast_eq_take, h20]
    rfl
  · rw [hins, List.reverse_drop]
    congr 1
    omega
  · rw [hins, List.length_take, List.length_reverse, hms]
    exact min_eq_left (by norm_num)

/-- C9 witness: 25 concrete measurements into an empty history. -/
theorem c9_history_eviction_witness :
    (Part000.addToHistory 0 (List.range 20)).head? = some 0 ∧
    (Part000.addToHistory 0 (List.range 20)).length ≤ 20 ∧
    ((List.range 20).length = 20 →
      Part000.addToHistory 0 (List.range 20) =
        0 :: (List.range 20).dropLast) ∧
    Part000.insertAll (List.range 25) [] = ((List.range 25).drop 5).reverse ∧
    (Part000.insertAll (List.range 25) []).length = 20 :=
  c9_history_eviction 0 (List.range 25) (List.range 20)
    (by simp) (by simp)

/-- C10: the orchestrator's coefficient step ignores the configured disk and
fabric diameters: two session states sharing the measured total area and scale
factor produce the same coefficient, and on valid input the coefficient is the
formula applied with the fixed constants 18 and 30. -/
theorem c10_fixed_diameters (s1 s2 : App.AppState)
    (htot : s1.drapeAreaTotal = s2.drapeAreaTotal)
    (hsf : s1.scaleFactor = s2.scaleFactor) :
    App.calculateDrapeCoefficient s1 = App.calculateDrapeCoefficient s2 ∧
    (0 < s1.drapeAreaTotal → s1.scaleFactor ≠ 0 →
      App.calculateDrapeCoefficient s1 =
        some (DrapeFormulas.drapeCoefficient s1.drapeAreaTotal 18 30)) := by
  constructor
  · simp only [App.calculateDrapeCoefficient, htot, hsf]
  · intro h1 h2
    rw [App.calculateDrapeCoefficient, if_neg]
    push_neg
    exact ⟨h1, h2⟩

/-- C10 witness: two states that differ only in the configured diameters give
the same coefficient, computed with the fixed constants. -/
theorem c10_fixed_diameters_witness :
    App.calculateDrapeCoefficient ⟨380, 32, 18, 30⟩ =
      App.calculateDrapeCoefficient ⟨380, 32, 20, 25⟩ ∧
    App.calculateDrapeCoefficient ⟨380, 32, 18, 30⟩ =
      some (DrapeFormulas.drapeCoefficient 380 18 30) :=
  ⟨(c10_fixed_diameters ⟨380, 32, 18, 30⟩ ⟨380, 32, 20, 25⟩ rfl rfl).1,
    (c10_fixed_diameters ⟨380, 32, 18, 30⟩ ⟨380, 32, 20, 25⟩ rfl rfl).2
      (by norm_num) (by norm_num)⟩

/-- A candidate contour, abstracted by the two quantities the selection loop
in processDrapeArea (src/script.js) reads from it: cv.contourArea and the
closed cv.arcLength perimeter. -/
structure Contour where
  area : ℚ
  perimeter : ℚ

/-- Circularity of a contour as computed inside the selection loop of
processDrapeArea (src/script.js): 4 · pi · area / perimeter². -/
def circularityOf (c : Contour) : ℚ :=
  4 * mathPI * c.area / (c.perimeter * c.perimeter)

/-- The acceptance condition of the primary edge-based strategy: area inside
the expected band and circularity strictly above 0.3. -/
def acceptedContour (minA maxA : ℚ) (c : Contour) : Prop :=
  minA ≤ c.area ∧ c.area ≤ maxA ∧ circularityOf c > 0.3

instance decAcceptedContour (minA maxA : ℚ) (c : Contour) :
    Decidable (acceptedContour minA maxA c) :=
  decidable_of_iff (minA ≤ c.area ∧ c.area ≤ maxA ∧ circularityOf c > 0.3)
    Iff.rfl

namespace App

/-- Lower bound of the expected shadow-area band in processDrapeArea
(src/script.js): 1.2 times the expected disk pixel area
pi · ((diskDiameter / 2) · scaleFactor)². -/
def minDrapeArea (scaleFactor diskDiameter : ℚ) : ℚ :=
  mathPI * (diskDiameter / 2 * scaleFactor) * (diskDiameter / 2 * scaleFactor)
    * 1.2

/-- Upper bound of the expected shadow-area band in processDrapeArea
(src/script.js): 0.95 times the expected fabric pixel area. -/
def maxDrapeArea (scaleFactor fabricDiameter : ℚ) : ℚ :=
  mathPI * (fabricDiameter / 2 * scaleFactor)
    * (fabricDiameter / 2 * scaleFactor) * 0.95

/-- Embedding of the primary contour-selection loop of processDrapeArea
(src/script.js): contours outside the area band are skipped; a contour with
circularity above 0.3 and area strictly above the best area so far replaces
the best index; everything else leaves the state unchanged. -/
def findDrapeContourAux (minA maxA : ℚ) :
    List Contour → ℕ → Option ℕ → ℚ → Option ℕ
  | [], _, best, _ => best
  | c :: rest, i, best, bestArea =>
    if c.area < minA ∨ c.area > maxA then
      findDrapeContourAux minA maxA rest (i + 1) best bestArea
    else if circularityOf c > 0.3 ∧ c.area > bestArea then
      findDrapeContourAux minA maxA rest (i + 1) (some i) c.area
    else
      findDrapeContourAux minA maxA rest (i + 1) best bestArea

/-- The selection loop started, as in the source, at index 0 with
bestContourIndex = −1 (here none) and bestContourArea = 0. -/
def findDrapeContour (minA maxA : ℚ) (cs : List Contour) : Option ℕ :=
  findDrapeContourAux minA maxA cs 0 none 0

end App

/-- An accepted contour has strictly positive area: its circularity exceeds
0.3, which forces a positive numerator over a positive squared perimeter. -/
theorem acceptedContour_area_pos {minA maxA : ℚ} {c : Contour}
    (h : acceptedContour minA maxA c) : 0 < c.area := by
  obtain ⟨-, -, hcirc⟩ := h
  rw [circularityOf] at hcirc
  by_contra hap
  push_neg at hap
  rcases eq_or_ne (c.perimeter * c.perimeter) 0 with hp | hp
  · rw [hp, div_zero] at hcirc
    norm_num at hcirc
  · have hpp : 0 < c.perimeter * c.perimeter :=
      lt_of_le_of_ne (mul_self_nonneg _) (Ne.symm hp)
    have hnum : 4 * mathPI * c.area ≤ 0 := by nlinarith [mathPI_pos]
    have hle : 4 * mathPI * c.area / (c.perimeter * c.perimeter) ≤ 0 :=
      div_nonpos_iff.mpr (Or.inr ⟨hnum, le_of_lt hpp⟩)
    norm_num at hcirc
    linarith

/-- Membership in an enumeration from n gives an index at least n and a
member of the underlying list. -/
theorem mem_enumFrom_facts {α : Type} :
    ∀ (l : List α) (n : ℕ) (p : ℕ × α), p ∈ List.enumFrom n l →
      n ≤ p.1 ∧ p.2 ∈ l := by
  intro l
  induction l with
  | nil => intro n p hp; simp [List.enumFrom] at hp
  | cons a l ih =>
      intro n p hp
      rcases List.mem_cons.mp hp with rfl | hp
      · exact ⟨le_refl n, List.mem_cons_self a l⟩
      · obtain ⟨h1, h2⟩ := ih (n + 1) p hp
        exact ⟨by omega, List.mem_cons_of_mem a h2⟩

/-- The selected pair p beats the running best area, is accepted, dominates
every accepted contour of the list, and strictly dominates every accepted
pair enumerated before it. -/
def isBestAt (minA maxA : ℚ) (cs : List Contour) (E : List (ℕ × Contour))
    (ba : ℚ) (p : ℕ × Contour) : Prop :=
  acceptedContour minA maxA p.2 ∧ ba < p.2.area ∧
  (∀ c ∈ cs, acceptedContour minA maxA c → c.area ≤ p.2.area) ∧
  ∀ q ∈ E, q.1 < p.1 → acceptedContour minA maxA q.2 → q.2.area < p.2.area

/-- The selection loop returns none exactly when the incoming best is none and
no contour of the remainder is accepted with area above the running best. -/
theorem findDrapeContourAux_eq_none (minA maxA : ℚ) (cs : List Contour) :
    ∀ (i : ℕ) (best : Option ℕ) (ba : ℚ),
      App.findDrapeContourAux minA maxA cs i best ba = none ↔
        best = none ∧
          ∀ c ∈ cs, ¬(acceptedContour minA maxA c ∧ ba < c.area) := by
  induction cs with
  | nil =>
      intro i best ba
      simp [App.findDrapeContourAux]
  | cons c rest ih =>
      intro i best ba
      simp only [App.findDrapeContourAux]
      split_ifs with h1 h2
      · have hacc : ¬ acceptedContour minA maxA c := by
          rintro ⟨hmin2, hmax2, -⟩
          rcases h1 with h | h
          · exact absurd hmin2 (not_le.mpr h)
          · exact absurd hmax2 (not_le.mpr h)
        rw [ih (i + 1) best ba]
        constructor
        · rintro ⟨hb, hall⟩
          refine ⟨hb, ?_⟩
          intro q hq
          rcases List.mem_cons.mp hq with rfl | hq
          · rintro ⟨hacc2, -⟩
            exact hacc hacc2
          · exact hall q hq
        · rintro ⟨hb, hall⟩
          exact ⟨hb, fun q hq => hall q (List.mem_cons_of_mem _ hq)⟩
      · rw [ih (i + 1) (some i) c.area]
        push_neg at h1
        constructor
        · rintro ⟨hb, -⟩
          exact absurd hb (Option.some_ne_none i)
        · rintro ⟨hb, hall⟩
          exact absurd ⟨⟨h1.1, h1.2, h2.1⟩, h2.2⟩
            (hall c (List.mem_cons_self c rest))
      · rw [ih (i + 1) best ba]
        push_neg at h1
        have hkey : ¬(acceptedContour minA maxA c ∧ ba < c.area) := by
          rintro ⟨hacc2, hba2⟩
          exact h2 ⟨hacc2.2.2, hba2⟩
        constructor
        · rintro ⟨hb, hall⟩
          refine ⟨hb, ?_⟩
          intro q hq
          rcases List.mem_cons.mp hq with rfl | hq
          · exact hkey
          · exact hall q hq
        · rintro ⟨hb, hall⟩
          exact ⟨hb, fun q hq => hall q (List.mem_cons_of_mem _ hq)⟩

/-- The selection loop returns some b exactly when either the incoming best is
b and nothing in the remainder improves on the running best area, or some
enumerated pair with index b is accepted, beats the running best area, is a
maximum among accepted contours, and strictly beats every accepted pair
enumerated before it. -/
theorem findDrapeContourAux_eq_some (minA maxA : ℚ) (cs : List Contour) :
    ∀ (i : ℕ) (best : Option ℕ) (ba : ℚ) (b : ℕ),
      App.findDrapeContourAux minA maxA cs i best ba = some b ↔
        (best = some b ∧
          ∀ c ∈ cs, acceptedContour minA maxA c → c.area ≤ ba) ∨
        ∃ p ∈ List.enumFrom i cs, p.1 = b ∧
          isBestAt minA maxA cs (List.enumFrom i cs) ba p := by
  induction cs with
  | nil =>
      intro i best ba b
      simp [App.findDrapeContourAux]
  | cons c rest ih =>
      intro i best ba b
      simp only [App.findDrapeContourAux]
      split_ifs with h1 h2
      · -- head outside the band: it is skipped and is not accepted
        have hacc : ¬ acceptedContour minA maxA c := by
          rintro ⟨hmin2, hmax2, -⟩
          rcases h1 with h | h
          · exact absurd hmin2 (not_le.mpr h)
          · exact absurd hmax2 (not_le.mpr h)
        rw [ih (i + 1) best ba b]
        constructor
        · rintro (⟨hb, hall⟩ | ⟨p, hp, hpb, hpa, hpba, hmaxC, hstrictC⟩)
          · refine Or.inl ⟨hb, ?_⟩
            intro q hq
            rcases List.mem_cons.mp hq with rfl | hq
            · exact fun h => absurd h hacc
            · exact hall q hq
          · refine Or.inr ⟨p, List.mem_cons_of_mem _ hp, hpb, hpa, hpba,
              ?_, ?_⟩
            · intro q hq
              rcases List.mem_cons.mp hq with rfl | hq
              · exact fun h => absurd h hacc
              · exact hmaxC q hq
            · intro q hq hlt
              rcases List.mem_cons.mp hq with rfl | hq
              · exact fun h => absurd h hacc
              · exact hstrictC q hq hlt
        · rintro (⟨hb, hall⟩ | ⟨p, hp, hpb, hpa, hpba, hmaxC, hstrictC⟩)
          · exact Or.inl ⟨hb, fun q hq => hall q (List.mem_cons_of_mem _ hq)⟩
          · rcases List.mem_cons.mp hp with rfl | hp
            · exact absurd hpa hacc
            · refine Or.inr ⟨p, hp, hpb, hpa, hpba,
                fun q hq => hmaxC q (List.mem_cons_of_mem _ hq),
                fun q hq => hstrictC q (List.mem_cons_of_mem _ hq)⟩
      · -- head accepted and above the running best: the state updates
        push_neg at h1
        have hacc : acceptedContour minA maxA c := ⟨h1.1, h1.2, h2.1⟩
        have hba : ba < c.area := h2.2
        rw [ih (i + 1) (some i) c.area b]
        constructor
        · rintro (⟨hb, hall⟩ | ⟨p, hp, hpb, hpa, hpba, hmaxC, hstrictC⟩)
          · -- nothing later improved: the head itself is the selection
            refine Or.inr ⟨(i, c), List.mem_cons_self _ _,
              Option.some.inj hb, hacc, hba, ?_, ?_⟩
            · intro q hq
              rcases List.mem_cons.mp hq with rfl | hq
              · exact fun _ => le_refl _
              · exact hall q hq
            · intro q hq hlt
              rcases List.mem_cons.mp hq with rfl | hq
              · exact absurd hlt (lt_irrefl i)
              · have := (mem_enumFrom_facts rest (i + 1) q hq).1
                omega
          · -- something later beat the head
            refine Or.inr ⟨p, List.mem_cons_of_mem _ hp, hpb, hpa,
              hba.trans hpba, ?_, ?_⟩
            · intro q hq
              rcases List.mem_cons.mp hq with rfl | hq
              · exact fun _ => le_of_lt hpba
              · exact hmaxC q hq
            · intro q hq hlt
              rcases List.mem_cons.mp hq with rfl | hq
              · exact fun _ => hpba
              · exact hstrictC q hq hlt
        · rintro (⟨hb, hall⟩ | ⟨p, hp, hpb, hpa, hpba, hmaxC, hstrictC⟩)
          · exact absurd (hall c (List.mem_cons_self _ _) hacc)
              (not_le.mpr hba)
          · rcases List.mem_cons.mp hp with rfl | hp
            · refine Or.inl ⟨congrArg some hpb, ?_⟩
              exact fun q hq => hmaxC q (List.mem_cons_of_mem _ hq)
            · refine Or.inr ⟨p, hp, hpb, hpa, ?_,
                fun q hq => hmaxC q (List.mem_cons_of_mem _ hq),
                fun q hq => hstrictC q (List.mem_cons_of_mem _ hq)⟩
              have hip : i < p.1 := by
                have := (mem_enumFrom_facts rest (i + 1) p hp).1
                omega
              exact hstrictC (i, c) (List.mem_cons_self _ _) hip hacc
      · -- head in the band but rejected by circularity or by the best area
        push_neg at h1
        have hkey : acceptedContour minA maxA c → c.area ≤ ba := by
          intro hacc2
          by_contra hgt
          exact h2 ⟨hacc2.2.2, not_le.mp hgt⟩
        rw [ih (i + 1) best ba b]
        constructor
        · rintro (⟨hb, hall⟩ | ⟨p, hp, hpb, hpa, hpba, hmaxC, hstrictC⟩)
          · refine Or.inl ⟨hb, ?_⟩
            intro q hq
            rcases List.mem_cons.mp hq with rfl | hq
            · exact hkey
            · exact hall q hq
          · refine Or.inr ⟨p, List.mem_cons_of_mem _ hp, hpb, hpa, hpba,
              ?_, ?_⟩
            · intro q hq
              rcases List.mem_cons.mp hq with rfl | hq
              · exact fun h => (hkey h).trans (le_of_lt hpba)
              · exact hmaxC q hq
            · intro q hq hlt
              rcases List.mem_cons.mp hq with rfl | hq
              · exact fun h => lt_of_le_of_lt (hkey h) hpba
              · exact hstrictC q hq hlt
        · rintro (⟨hb, hall⟩ | ⟨p, hp, hpb, hpa, hpba, hmaxC, hstrictC⟩)
          · exact Or.inl ⟨hb, fun q hq => hall q (List.mem_cons_of_mem _ hq)⟩
          · rcases List.mem_cons.mp hp with rfl | hp
            · exact absurd (hkey hpa) (not_le.mpr hpba)
            · refine Or.inr ⟨p, hp, hpb, hpa, hpba,
                fun q hq => hmaxC q (List.mem_cons_of_mem _ hq),
                fun q hq => hstrictC q (List.mem_cons_of_mem _ hq)⟩

/-- C7: with the computed band from 1.2 times the expected disk pixel area to
0.95 times the expected fabric pixel area, the primary strategy selects no
contour exactly when no contour has area in the band with circularity above
0.3 (so the fallback is triggered), and it selects index b exactly when the
contour enumerated at b is accepted, has the largest area among all accepted
contours, and strictly beats every accepted contour enumerated earlier (ties
go to the first-found contour). -/
theorem c7_primary_contour_selection
    (scaleFactor diskD fabricD minA maxA : ℚ) (cs : List Contour)
    (hmin : minA = App.minDrapeArea scaleFactor diskD)
    (hmax : maxA = App.maxDrapeArea scaleFactor fabricD) :
    (App.findDrapeContour minA maxA cs = none ↔
      ∀ c ∈ cs, ¬ acceptedContour minA maxA c) ∧
    ∀ b : ℕ, App.findDrapeContour minA maxA cs = some b ↔
      ∃ p ∈ cs.enum, p.1 = b ∧ acceptedContour minA maxA p.2 ∧
        (∀ c ∈ cs, acceptedContour minA maxA c → c.area ≤ p.2.area) ∧
        ∀ q ∈ cs.enum, q.1 < p.1 → acceptedContour minA maxA q.2 →
          q.2.area < p.2.area := by
  constructor
  · rw [App.findDrapeContour, findDrapeContourAux_eq_none minA maxA cs 0 none 0]
    constructor
    · rintro ⟨-, hall⟩ c hc hacc2
      exact hall c hc ⟨hacc2, acceptedContour_area_pos hacc2⟩
    · intro hall
      exact ⟨rfl, fun c hc h => hall c hc h.1⟩
  · intro b
    rw [App.findDrapeContour,
      findDrapeContourAux_eq_some minA maxA cs 0 none 0 b]
    constructor
    · rintro (⟨hb, -⟩ | ⟨p, hp, hpb, hpa, hpba, hmaxC, hstrictC⟩)
      · exact Option.noConfusion hb
      · exact ⟨p, hp, hpb, hpa, hmaxC, hstrictC⟩
    · rintro ⟨p, hp, hpb, hpa, hmaxC, hstrictC⟩
      exact Or.inr ⟨p, hp, hpb, hpa, acceptedContour_area_pos hpa,
        hmaxC, hstrictC⟩

/-- C7 witness: with scale factor 1, disk diameter 2 and fabric diameter 20,
on a two-contour list where both contours are accepted, the loop selects the
larger second contour. -/
theorem c7_primary_contour_selection_witness :
    App.findDrapeContour (App.minDrapeArea 1 2) (App.maxDrapeArea 1 20)
      [⟨100, 40⟩, ⟨200, 60⟩] = some 1 :=
  ((c7_primary_contour_selection 1 2 20 (App.minDrapeArea 1 2)
      (App.maxDrapeArea 1 20) [⟨100, 40⟩, ⟨200, 60⟩] rfl rfl).2 1).mpr
    (by
      refine ⟨(1, ⟨200, 60⟩),
        List.mem_cons_of_mem _ (List.mem_cons_self _ _), rfl, ?_, ?_, ?_⟩
      · refine ⟨?_, ?_, ?_⟩ <;>
          norm_num [circularityOf, App.minDrapeArea, App.maxDrapeArea, mathPI]
      · intro c hc
        rcases List.mem_cons.mp hc with rfl | hc
        · intro _
          norm_num
        · rcases List.mem_cons.mp hc with rfl | hc
          · intro _
            norm_num
          · simp at hc
      · intro q hq hlt
        rcases List.mem_cons.mp hq with rfl | hq
        · intro _
          norm_num
        · rcases List.mem_cons.mp hq with rfl | hq
          · exact absurd hlt (lt_irrefl 1)
          · simp at hq)

end DrapeTest
